import Mathlib

/-!
Verification development for the `web.session` package: a shallow embedding
of the session identifier codec (`src/web/session/util.py`), the session
lifecycle coordinator (`src/web/ext/session.py`) and the in-memory storage
engine with its periodic expiration sweeper (`src/web/session/memory.py`),
together with theorems settling the behavioural claims about them.

Machine integers are modelled as `Nat`/`Int` with explicit `% 2^w` where the
source wraps; fallible Python code is modelled with `Option`/`Except`;
Python exceptions relevant to the claims are distinguished by an error type.
-/

namespace WebSession

/-! ## Python primitive semantics

The codec calls `int(segment, 16)`, `"{:0Nx}".format(value)`, string
slicing, `binascii.unhexlify` and `str.strip`-style whitespace handling.
These are embedded faithfully below, on `List Char`. -/

/-- Characters `str.strip`/`int()` treat as whitespace (ASCII subset). -/
def isPySpace (c : Char) : Bool :=
  c = ' ' || c = '\t' || c = '\n' || c = '\r' || c = '\x0b' || c = '\x0c'

/-- Characters accepted as hexadecimal digits by `int(s, 16)` and
`binascii.unhexlify`: `0-9`, `a-f`, `A-F`. -/
def isHexDigitPy (c : Char) : Bool :=
  c.isDigit || ('a' ≤ c && c ≤ 'f') || ('A' ≤ c && c ≤ 'F')

/-- Characters produced by Python's `x` format code: `0-9`, `a-f` only. -/
def isLowerHex (c : Char) : Bool :=
  c.isDigit || ('a' ≤ c && c ≤ 'f')

/-- Numeric value of a hexadecimal digit character. -/
def hexVal (c : Char) : Nat :=
  if c.isDigit then c.toNat - 48
  else if 'a' ≤ c then c.toNat - 87
  else c.toNat - 55

/-- Tail of Python's base-16 digit grammar: `('_'? digit)*` with a single
underscore permitted only between digits (PEP 515). `acc` is the value of
the digits consumed so far. -/
def goDigits : Nat → List Char → Option Nat
  | acc, [] => some acc
  | acc, c :: rest =>
    if c = '_' then
      match rest with
      | [] => none
      | c₂ :: rest₂ =>
        if isHexDigitPy c₂ then goDigits (acc * 16 + hexVal c₂) rest₂ else none
    else if isHexDigitPy c then goDigits (acc * 16 + hexVal c) rest else none

/-- Python's base-16 digit-run grammar `digit ('_'? digit)*`: the run must
start with a digit and may not be empty. -/
def parseDigits : List Char → Option Nat
  | [] => none
  | c :: rest => if isHexDigitPy c then goDigits (hexVal c) rest else none

/-- The part of a Python base-16 literal after the optional sign: an
optional `0x`/`0X` base marker (which may be followed by one underscore)
and then the digit run. -/
def afterSignHex (l : List Char) : Option Nat :=
  match l with
  | c₀ :: c :: rest =>
    if c₀ = '0' && (c = 'x' || c = 'X') then
      match rest with
      | [] => none
      | c₂ :: rest₂ => if c₂ = '_' then parseDigits rest₂ else parseDigits (c₂ :: rest₂)
    else parseDigits (c₀ :: c :: rest)
  | l => parseDigits l

/-- Strip leading and trailing Python whitespace, as `int()` does before
reading the literal. -/
def stripPySpaces (l : List Char) : List Char :=
  ((l.dropWhile isPySpace).reverse.dropWhile isPySpace).reverse

/-- Sign handling of Python's `int(s, 16)`, applied to the stripped text. -/
def pyIntHexCore : List Char → Option Int
  | [] => none
  | c :: rest =>
    if c = '+' then (afterSignHex rest).map (fun n => (n : Int))
    else if c = '-' then (afterSignHex rest).map (fun n => -(n : Int))
    else (afterSignHex (c :: rest)).map (fun n => (n : Int))

/-- Python's `int(s, 16)`: optional surrounding whitespace, optional sign,
optional `0x` marker, digit run with single internal underscores. Returns
`none` where CPython raises `ValueError`. -/
def pyIntHex (l : List Char) : Option Int :=
  pyIntHexCore (stripPySpaces l)

/-- Lowercase hexadecimal digit character for `n < 16`. -/
def hexDigitChar (n : Nat) : Char :=
  if n < 10 then Char.ofNat (48 + n) else Char.ofNat (87 + n)

/-- Minimal lowercase hexadecimal rendering of a natural number
(most-significant digit first, at least one digit). -/
def natToHexDigits (n : Nat) : List Char :=
  if _h : n < 16 then [hexDigitChar n]
  else natToHexDigits (n / 16) ++ [hexDigitChar (n % 16)]
  termination_by n
  decreasing_by exact Nat.div_lt_self (by omega) (by omega)

/-- Zero-pad a digit run on the left to width `w`, as `{:0Nx}` does. -/
def zfillHex (w : Nat) (l : List Char) : List Char :=
  List.replicate (w - l.length) '0' ++ l

/-- Python's `"{:0Nx}".format(v)` for an `int` `v`: lowercase hex, sign
first for negatives, zero-padded so the whole rendering (sign included) is
at least `w` characters; values too wide are not truncated. -/
def pyFormatHex (w : Nat) (v : Int) : List Char :=
  if v < 0 then '-' :: zfillHex (w - 1) (natToHexDigits (-v).toNat)
  else zfillHex w (natToHexDigits v.toNat)

/-- Argument accepted by `binascii.unhexlify`: even length, hex digits
only (otherwise it raises `binascii.Error`, a `ValueError`). -/
def unhexlifyOk (l : List Char) : Bool :=
  l.length % 2 = 0 && l.all isHexDigitPy

/-! ## SessionIdentifier (src/web/session/util.py lines 56-88) -/

/-- Value object behind `SessionIdentifier`: the four fields `time`,
`machine`, `process`, `counter` the Python constructor fills by `parse` or
`generate`. Python ints are unbounded and may be negative (`int('-1', 16)`),
so the fields are `Int`. -/
structure SessionIdentifier where
  time : Int
  machine : Int
  process : Int
  counter : Int
deriving DecidableEq, Repr

/-- `SessionIdentifier.parse` (util.py lines 63-70): reads `value[:8]`,
`value[8:14]`, `value[14:18]`, `value[18:24]` each through `int(·, 16)`.
`none` models the `ValueError` one of those conversions raises. There is no
length check of the whole string. -/
def SessionIdentifier.parse (value : List Char) : Option SessionIdentifier := do
  let t ← pyIntHex (value.take 8)
  let m ← pyIntHex ((value.drop 8).take 6)
  let p ← pyIntHex ((value.drop 14).take 4)
  let c ← pyIntHex ((value.drop 18).take 6)
  return ⟨t, m, p, c⟩

/-- `SessionIdentifier.__str__` (util.py lines 78-79): the format string
`"{time:08x}{machine:06x}{process:04x}{counter:06x}"`. -/
def SessionIdentifier.str (s : SessionIdentifier) : List Char :=
  pyFormatHex 8 s.time ++ pyFormatHex 6 s.machine ++ pyFormatHex 4 s.process
    ++ pyFormatHex 6 s.counter

/-- Fields fit the widths the claims name: `timestamp < 2^32`,
`machineId < 2^24`, `processId < 2^16`, `counter < 2^24`, all
non-negative. -/
def SessionIdentifier.inWidths (s : SessionIdentifier) : Prop :=
  0 ≤ s.time ∧ s.time < 2 ^ 32 ∧ 0 ≤ s.machine ∧ s.machine < 2 ^ 24 ∧
  0 ≤ s.process ∧ s.process < 2 ^ 16 ∧ 0 ≤ s.counter ∧ s.counter < 2 ^ 24

instance (s : SessionIdentifier) : Decidable s.inWidths := by
  unfold SessionIdentifier.inWidths; infer_instance

/-! ## Lemmas about the hexadecimal codec -/

/-- Value of a run of hexadecimal digit characters, accumulated onto `a`. -/
def hexFold (l : List Char) (a : Nat) : Nat :=
  l.foldl (fun x c => x * 16 + hexVal c) a

theorem hexFold_nil (a : Nat) : hexFold [] a = a := rfl

theorem hexFold_cons (c : Char) (l : List Char) (a : Nat) :
    hexFold (c :: l) a = hexFold l (a * 16 + hexVal c) := rfl

theorem hexFold_append (l₁ l₂ : List Char) (a : Nat) :
    hexFold (l₁ ++ l₂) a = hexFold l₂ (hexFold l₁ a) :=
  List.foldl_append _ _ _ _

/-- Characters the formatter can emit: the image of `hexDigitChar` on
digits below 16. -/
def isDigitImg (c : Char) : Prop := ∃ d, d < 16 ∧ c = hexDigitChar d

/-- Character-level facts about formatter output, checked by computation. -/
theorem digitImg_facts : ∀ d < 16,
    isHexDigitPy (hexDigitChar d) = true ∧ isLowerHex (hexDigitChar d) = true ∧
    hexDigitChar d ≠ '_' ∧ hexDigitChar d ≠ 'x' ∧ hexDigitChar d ≠ 'X' ∧
    hexDigitChar d ≠ '+' ∧ hexDigitChar d ≠ '-' ∧
    isPySpace (hexDigitChar d) = false ∧ hexVal (hexDigitChar d) = d := by decide

theorem goDigits_hex (l : List Char) (hl : ∀ c ∈ l, isDigitImg c) :
    ∀ acc, goDigits acc l = some (hexFold l acc) := by
  induction l with
  | nil => intro acc; rfl
  | cons c rest ih =>
    intro acc
    obtain ⟨d, hd, hc⟩ := hl c (List.mem_cons_self c rest)
    obtain ⟨hhex, -, hund, -⟩ := digitImg_facts d hd
    subst hc
    rw [goDigits.eq_def]
    simp only [hund, hhex]
    simp only [if_false, if_true]
    rw [hexFold_cons]
    exact ih (fun x hx => hl x (List.mem_cons_of_mem _ hx)) _

theorem parseDigits_hex (c : Char) (rest : List Char)
    (hl : ∀ x ∈ c :: rest, isDigitImg x) :
    parseDigits (c :: rest) = some (hexFold (c :: rest) 0) := by
  obtain ⟨d, hd, hc⟩ := hl c (List.mem_cons_self c rest)
  obtain ⟨hhex, -⟩ := digitImg_facts d hd
  simp only [parseDigits]
  rw [if_pos (hc ▸ hhex),
    goDigits_hex rest (fun x hx => hl x (List.mem_cons_of_mem _ hx)), hexFold_cons]
  simp

theorem afterSignHex_hex (l : List Char) (hne : l ≠ []) (hl : ∀ c ∈ l, isDigitImg c) :
    afterSignHex l = parseDigits l := by
  match l with
  | [c] => rfl
  | c₀ :: c :: rest =>
    obtain ⟨d, hd, hc⟩ := hl c (List.mem_cons_of_mem _ (List.mem_cons_self c rest))
    obtain ⟨-, -, -, hx, hX, -⟩ := digitImg_facts d hd
    have hcond : (c₀ = '0' && (c = 'x' || c = 'X')) = false := by
      subst hc; simp [hx, hX]
    simp only [afterSignHex]
    rw [hcond]
    simp

theorem dropWhile_space_eq_self (l : List Char) (hl : ∀ c ∈ l, isPySpace c = false) :
    l.dropWhile isPySpace = l := by
  cases l with
  | nil => rfl
  | cons c rest =>
    rw [List.dropWhile_cons, hl c (List.mem_cons_self c rest)]
    simp

theorem stripPySpaces_eq_self (l : List Char) (hl : ∀ c ∈ l, isPySpace c = false) :
    stripPySpaces l = l := by
  unfold stripPySpaces
  rw [dropWhile_space_eq_self l hl,
    dropWhile_space_eq_self l.reverse (fun c hc => hl c (List.mem_reverse.mp hc)),
    List.reverse_reverse]

theorem pyIntHex_hex (c : Char) (rest : List Char)
    (hl : ∀ x ∈ c :: rest, isDigitImg x) :
    pyIntHex (c :: rest) = some ((hexFold (c :: rest) 0 : Nat) : Int) := by
  have hspace : ∀ x ∈ c :: rest, isPySpace x = false := by
    intro x hx
    obtain ⟨d, hd, hxe⟩ := hl x hx
    exact hxe ▸ (digitImg_facts d hd).2.2.2.2.2.2.2.1
  obtain ⟨d, hd, hc⟩ := hl c (List.mem_cons_self c rest)
  obtain ⟨-, -, -, -, -, hplus, hminus, -⟩ := digitImg_facts d hd
  rw [pyIntHex, stripPySpaces_eq_self _ hspace]
  simp only [pyIntHexCore]
  rw [if_neg (hc ▸ hplus), if_neg (hc ▸ hminus),
    afterSignHex_hex _ (by simp) hl, parseDigits_hex c rest hl]
  rfl

theorem natToHexDigits_img (n : Nat) : ∀ c ∈ natToHexDigits n, isDigitImg c := by
  induction n using Nat.strong_induction_on with
  | _ n ih =>
    unfold natToHexDigits
    split
    · next h =>
      intro c hc
      simp only [List.mem_singleton] at hc
      exact ⟨n, h, hc⟩
    · next h =>
      intro c hc
      rw [List.mem_append] at hc
      rcases hc with hc | hc
      · exact ih (n / 16) (Nat.div_lt_self (by omega) (by omega)) c hc
      · simp only [List.mem_singleton] at hc
        exact ⟨n % 16, Nat.mod_lt _ (by omega), hc⟩

theorem natToHexDigits_len_le :
    ∀ n w : Nat, 1 ≤ w → n < 16 ^ w → (natToHexDigits n).length ≤ w := by
  intro n
  induction n using Nat.strong_induction_on with
  | _ n ih =>
    intro w hw hn
    unfold natToHexDigits
    split
    · simpa using hw
    · next h =>
      have hw2 : 2 ≤ w := by
        rcases Nat.lt_or_ge w 2 with h2 | h2
        · exfalso
          have : w = 1 := by omega
          subst this
          simp at hn
          omega
        · exact h2
      have hdiv : n / 16 < 16 ^ (w - 1) := by
        apply Nat.div_lt_of_lt_mul
        have : 16 * 16 ^ (w - 1) = 16 ^ w := by
          rw [← pow_succ']
          congr 1
          omega
        omega
      have := ih (n / 16) (Nat.div_lt_self (by omega) (by omega)) (w - 1) (by omega) hdiv
      simp only [List.length_append, List.length_singleton]
      omega

theorem natToHexDigits_hexFold :
    ∀ n a : Nat, hexFold (natToHexDigits n) a = a * 16 ^ (natToHexDigits n).length + n := by
  intro n
  induction n using Nat.strong_induction_on with
  | _ n ih =>
    intro a
    unfold natToHexDigits
    split
    · next h =>
      rw [hexFold_cons, hexFold_nil, (digitImg_facts n h).2.2.2.2.2.2.2.2]
      simp
    · next h =>
      rw [hexFold_append, hexFold_cons, hexFold_nil,
        (digitImg_facts (n % 16) (Nat.mod_lt _ (by omega))).2.2.2.2.2.2.2.2,
        ih (n / 16) (Nat.div_lt_self (by omega) (by omega)) a]
      have hdm : n / 16 * 16 + n % 16 = n := by omega
      simp only [List.length_append, List.length_singleton]
      calc (a * 16 ^ (natToHexDigits (n / 16)).length + n / 16) * 16 + n % 16
          = a * (16 ^ (natToHexDigits (n / 16)).length * 16) + (n / 16 * 16 + n % 16) := by
            ring
        _ = a * 16 ^ ((natToHexDigits (n / 16)).length + 1) + n := by rw [hdm, ← pow_succ]

theorem hexFold_replicate_zero :
    ∀ k a : Nat, hexFold (List.replicate k '0') a = a * 16 ^ k := by
  intro k
  induction k with
  | zero => intro a; simp [hexFold_nil]
  | succ k ih =>
    intro a
    rw [List.replicate_succ, hexFold_cons, ih]
    have h0 : hexVal '0' = 0 := by decide
    rw [h0]
    ring

theorem zfill_spec (w v : Nat) (hw : 1 ≤ w) (hv : v < 16 ^ w) :
    (zfillHex w (natToHexDigits v)).length = w
    ∧ (∀ c ∈ zfillHex w (natToHexDigits v), isDigitImg c)
    ∧ (∀ a, hexFold (zfillHex w (natToHexDigits v)) a = a * 16 ^ w + v) := by
  have hlen := natToHexDigits_len_le v w hw hv
  refine ⟨?_, ?_, ?_⟩
  · simp only [zfillHex, List.length_append, List.length_replicate]
    omega
  · intro c hc
    rw [zfillHex, List.mem_append] at hc
    rcases hc with hc | hc
    · have h0 : c = '0' := List.eq_of_mem_replicate hc
      exact ⟨0, by omega, by rw [h0]; rfl⟩
    · exact natToHexDigits_img v c hc
  · intro a
    rw [zfillHex, hexFold_append, hexFold_replicate_zero, natToHexDigits_hexFold]
    set L := (natToHexDigits v).length with hL
    have hpow : 16 ^ (w - L) * 16 ^ L = 16 ^ w := by
      rw [← pow_add]
      congr 1
      omega
    calc a * 16 ^ (w - L) * 16 ^ L + v = a * (16 ^ (w - L) * 16 ^ L) + v := by ring
      _ = a * 16 ^ w + v := by rw [hpow]

theorem pyFormatHex_spec (w : Nat) (v : Int) (hw : 1 ≤ w) (h0 : 0 ≤ v)
    (hv : v < 16 ^ w) :
    (pyFormatHex w v).length = w ∧ (∀ c ∈ pyFormatHex w v, isDigitImg c)
    ∧ pyIntHex (pyFormatHex w v) = some v := by
  have hneg : ¬ v < 0 := by omega
  have hvn : v.toNat < 16 ^ w := by
    have h1 : (v.toNat : Int) = v := Int.toNat_of_nonneg h0
    have h2 : ((16 ^ w : Nat) : Int) = (16 : Int) ^ w := by push_cast; ring
    omega
  obtain ⟨hl, hm, hf⟩ := zfill_spec w v.toNat hw hvn
  rw [pyFormatHex, if_neg hneg]
  refine ⟨hl, hm, ?_⟩
  match hblock : zfillHex w (natToHexDigits v.toNat) with
  | [] => rw [hblock] at hl; simp at hl; omega
  | c :: rest =>
    rw [pyIntHex_hex c rest (hblock ▸ hm)]
    rw [← hblock, hf 0]
    simp [Int.toNat_of_nonneg h0]

theorem digitImg_lower {c : Char} (h : isDigitImg c) : isLowerHex c = true := by
  obtain ⟨d, hd, hc⟩ := h
  exact hc ▸ (digitImg_facts d hd).2.1

/-- Canonical-form facts for an identifier whose fields fit their widths:
`str` is exactly 24 lowercase hex characters and `parse` recovers the
identifier. -/
theorem str_spec (s : SessionIdentifier) (h : s.inWidths) :
    s.str.length = 24 ∧ (∀ c ∈ s.str, isLowerHex c = true)
    ∧ SessionIdentifier.parse s.str = some s := by
  obtain ⟨h1, h2, h3, h4, h5, h6, h7, h8⟩ := h
  have e1 : (16 : Int) ^ 8 = 2 ^ 32 := by norm_num
  have e2 : (16 : Int) ^ 6 = 2 ^ 24 := by norm_num
  have e3 : (16 : Int) ^ 4 = 2 ^ 16 := by norm_num
  obtain ⟨l1, m1, p1⟩ := pyFormatHex_spec 8 s.time (by norm_num) h1 (e1 ▸ h2)
  obtain ⟨l2, m2, p2⟩ := pyFormatHex_spec 6 s.machine (by norm_num) h3 (e2 ▸ h4)
  obtain ⟨l3, m3, p3⟩ := pyFormatHex_spec 4 s.process (by norm_num) h5 (e3 ▸ h6)
  obtain ⟨l4, m4, p4⟩ := pyFormatHex_spec 6 s.counter (by norm_num) h7 (e2 ▸ h8)
  have hassoc : s.str = pyFormatHex 8 s.time ++ (pyFormatHex 6 s.machine
      ++ (pyFormatHex 4 s.process ++ pyFormatHex 6 s.counter)) := by
    rw [SessionIdentifier.str, List.append_assoc, List.append_assoc]
  have t8 : s.str.take 8 = pyFormatHex 8 s.time := by
    rw [hassoc, List.take_left' l1]
  have d8 : s.str.drop 8 = pyFormatHex 6 s.machine
      ++ (pyFormatHex 4 s.process ++ pyFormatHex 6 s.counter) := by
    rw [hassoc, List.drop_left' l1]
  have t86 : (s.str.drop 8).take 6 = pyFormatHex 6 s.machine := by
    rw [d8, List.take_left' l2]
  have d14 : s.str.drop 14 = pyFormatHex 4 s.process ++ pyFormatHex 6 s.counter := by
    have h14 : s.str.drop 14 = (s.str.drop 8).drop 6 := by
      rw [List.drop_drop]
    rw [h14, d8, List.drop_left' l2]
  have t144 : (s.str.drop 14).take 4 = pyFormatHex 4 s.process := by
    rw [d14, List.take_left' l3]
  have d18 : s.str.drop 18 = pyFormatHex 6 s.counter := by
    have h18 : s.str.drop 18 = (s.str.drop 14).drop 4 := by
      rw [List.drop_drop]
    rw [h18, d14, List.drop_left' l3]
  have t186 : (s.str.drop 18).take 6 = pyFormatHex 6 s.counter := by
    rw [d18]
    exact List.take_of_length_le (le_of_eq l4)
  refine ⟨?_, ?_, ?_⟩
  · rw [hassoc]
    simp only [List.length_append, l1, l2, l3, l4]
  · intro c hc
    rw [hassoc] at hc
    simp only [List.mem_append] at hc
    rcases hc with hc | hc | hc | hc
    · exact digitImg_lower (m1 c hc)
    · exact digitImg_lower (m2 c hc)
    · exact digitImg_lower (m3 c hc)
    · exact digitImg_lower (m4 c hc)
  · simp only [SessionIdentifier.parse, t8, t86, t144, t186, p1, p2, p3, p4]
    rfl

/-! ## Claims C4 and C5 (identifier codec) -/

/-- C4: for every SessionIdentifier whose fields fit their widths
(`timestamp < 2^32`, `machineId < 2^24`, `processId < 2^16`,
`counter < 2^24`), formatting yields exactly 24 lowercase hex characters
and parsing that string yields an identifier with the same four field
values — `parse ∘ format` is the identity. -/
theorem c4_format_parse_round_trip (t m p c : Nat)
    (ht : t < 2 ^ 32) (hm : m < 2 ^ 24) (hp : p < 2 ^ 16) (hc : c < 2 ^ 24) :
    (SessionIdentifier.str ⟨t, m, p, c⟩).length = 24
    ∧ (∀ ch ∈ SessionIdentifier.str ⟨t, m, p, c⟩, isLowerHex ch = true)
    ∧ SessionIdentifier.parse (SessionIdentifier.str ⟨t, m, p, c⟩)
        = some ⟨t, m, p, c⟩ := by
  apply str_spec
  exact ⟨Int.natCast_nonneg t, by show (t : Int) < 2 ^ 32; exact_mod_cast ht,
    Int.natCast_nonneg m, by show (m : Int) < 2 ^ 24; exact_mod_cast hm,
    Int.natCast_nonneg p, by show (p : Int) < 2 ^ 16; exact_mod_cast hp,
    Int.natCast_nonneg c, by show (c : Int) < 2 ^ 24; exact_mod_cast hc⟩

/-- Witness for C4 at the concrete identifier (1, 2, 3, 4). -/
theorem c4_format_parse_round_trip_witness :
    (SessionIdentifier.str ⟨(1 : Nat), (2 : Nat), (3 : Nat), (4 : Nat)⟩).length = 24
    ∧ (∀ ch ∈ SessionIdentifier.str ⟨(1 : Nat), (2 : Nat), (3 : Nat), (4 : Nat)⟩,
        isLowerHex ch = true)
    ∧ SessionIdentifier.parse
        (SessionIdentifier.str ⟨(1 : Nat), (2 : Nat), (3 : Nat), (4 : Nat)⟩)
      = some ⟨(1 : Nat), (2 : Nat), (3 : Nat), (4 : Nat)⟩ :=
  c4_format_parse_round_trip 1 2 3 4 (by norm_num) (by norm_num) (by norm_num)
    (by norm_num)

/-- C5 counterexample: the 25-character string of `'0'`s is parsed
successfully by `SessionIdentifier.parse` even though its length is not 24,
so a length different from 24 does not make the parse fail. -/
theorem c5_counterexample_length25 :
    SessionIdentifier.parse (List.replicate 25 '0') = some ⟨0, 0, 0, 0⟩
    ∧ (List.replicate 25 '0').length ≠ 24 := by
  exact ⟨by rfl, by decide⟩

/-- C5 (amended): the unsigned parse fails exactly when one of the four
fixed-width slices (characters [0,8), [8,14), [14,18), [18,24)) is rejected
by Python's `int(·, 16)`; the total length itself is never examined. In
particular every string of length at most 18 fails (its final slice is
empty), while longer strings of length other than 24 can parse
successfully. -/
theorem c5_parse_segment_criterion (l : List Char) :
    ((SessionIdentifier.parse l).isSome ↔
      ((pyIntHex (l.take 8)).isSome ∧ (pyIntHex ((l.drop 8).take 6)).isSome ∧
       (pyIntHex ((l.drop 14).take 4)).isSome ∧ (pyIntHex ((l.drop 18).take 6)).isSome))
    ∧ (l.length ≤ 18 → SessionIdentifier.parse l = none) := by
  constructor
  · simp only [SessionIdentifier.parse]
    cases h1 : pyIntHex (l.take 8) <;>
      cases h2 : pyIntHex ((l.drop 8).take 6) <;>
        cases h3 : pyIntHex ((l.drop 14).take 4) <;>
          cases h4 : pyIntHex ((l.drop 18).take 6) <;>
            simp [Option.isSome]
  · intro hlen
    have hnil : l.drop 18 = [] := List.drop_eq_nil_of_le hlen
    have hnone : pyIntHex ((l.drop 18).take 6) = none := by
      rw [hnil]
      rfl
    simp only [SessionIdentifier.parse, hnone]
    cases pyIntHex (l.take 8) <;>
      cases pyIntHex ((l.drop 8).take 6) <;>
        cases pyIntHex ((l.drop 14).take 4) <;> rfl

/-! ## SignedSessionIdentifier (util.py lines 91-146) -/

/-- Reasons a `SignatureError` is raised: bad token length, expired token,
failed validity check. -/
inductive SignatureFailure where
  | length
  | expired
  | invalid
deriving DecidableEq, Repr

/-- Python exceptions the claims distinguish. `SignatureError`, `int()`
conversion failures and `binascii.Error` are all `ValueError` subclasses;
`AttributeError` and `TypeError` are not. -/
inductive PyExc where
  | signature (e : SignatureFailure)
  | intConversion
  | binascii
  | attribute
  | typeError
deriving DecidableEq, Repr

/-- Whether `except ValueError` catches the exception. -/
def PyExc.isValueError : PyExc → Bool
  | .attribute => false
  | .typeError => false
  | _ => true

/-- State of a `SignedSessionIdentifier` instance as the claims see it: the
identifier fields, the construction secret, the optional expiry window in
seconds (`self.expires`), the presented trailing signature
(`self._signature`; `[]` models the attribute being absent or empty) and
the lazily cached computed signature (`self.__signature`). -/
structure SignedSessionIdentifier where
  ident : SessionIdentifier
  secret : List Char
  expires : Option Int
  presented : List Char
  cachedSig : Option (List Char)
deriving DecidableEq, Repr

/-- The test `self.expires and (time() - self.time) > self.expires`
(util.py lines 106 and 137): an expiry of `0` is falsy in Python. -/
def expiredNow (expires : Option Int) (now t : Int) : Bool :=
  match expires with
  | none => false
  | some e => decide (e ≠ 0) && decide (now - t > e)

/-- The `signature` property (util.py lines 121-130): on first use computes
`hmac(self.__secret, unhexlify(str(self)), sha256).hexdigest()` and caches
it in `self.__signature`. `hmacHex` abstracts HMAC-SHA256 as a function of
the secret and of the 24-character identifier text (whose unhexlified bytes
are the real message; unhexlify is injective on well-formed hex, so no
information is lost). Raises `binascii.Error` when `str(self)` cannot be
unhexlified. -/
def SignedSessionIdentifier.signatureProp
    (hmacHex : List Char → List Char → List Char)
    (s : SignedSessionIdentifier) :
    Except PyExc (List Char × SignedSessionIdentifier) :=
  match s.cachedSig with
  | some sig => .ok (sig, s)
  | none =>
    if unhexlifyOk s.ident.str then
      .ok (hmacHex s.secret s.ident.str,
        { s with cachedSig := some (hmacHex s.secret s.ident.str) })
    else .error .binascii

/-- The `valid` property (util.py lines 132-146): false when no presented
signature or expired; otherwise recomputes the challenge HMAC and compares
it — per the source — with `self.signature` (the computed-and-cached
property), not with `self._signature` (the presented trailing 64
characters). `compare_digest` on equal-length ASCII strings is string
equality (its constant-time execution has no observable effect here). -/
def SignedSessionIdentifier.valid
    (hmacHex : List Char → List Char → List Char)
    (now : Int) (s : SignedSessionIdentifier) :
    Except PyExc (Bool × SignedSessionIdentifier) :=
  if s.presented = [] then .ok (false, s)
  else if expiredNow s.expires now s.ident.time then .ok (false, s)
  else
    if unhexlifyOk s.ident.str then
      match s.signatureProp hmacHex with
      | .error e => .error e
      | .ok (sig, s₂) => .ok (decide (hmacHex s.secret s.ident.str = sig), s₂)
    else .error .binascii

/-- `SignedSessionIdentifier.parse` (util.py lines 100-112): length check,
field parse via the unsigned parser, expiry check, store the trailing 64
characters as `self._signature`, then require `self.valid`. -/
def SignedSessionIdentifier.parse
    (hmacHex : List Char → List Char → List Char)
    (now : Int) (secret : List Char) (expires : Option Int)
    (value : List Char) : Except PyExc SignedSessionIdentifier :=
  if value.length ≠ 88 then .error (.signature .length)
  else
    match SessionIdentifier.parse value with
    | none => .error .intConversion
    | some ident =>
      if expiredNow expires now ident.time then .error (.signature .expired)
      else
        let s : SignedSessionIdentifier :=
          { ident := ident, secret := secret, expires := expires,
            presented := value.drop 24, cachedSig := none }
        match s.valid hmacHex now with
        | .error e => .error e
        | .ok (true, s₂) => .ok s₂
        | .ok (false, _) => .error (.signature .invalid)

/-- Per-process values `generate` reads (util.py lines 72-76): wall clock,
`MACHINE` fingerprint, process id, counter value consumed. -/
structure GenEnv where
  now : Int
  machine : Nat
  pid : Nat
  counterVal : Nat
deriving DecidableEq, Repr

/-- `SessionIdentifier.generate` as invoked through
`SignedSessionIdentifier.__init__` with no value: fields from the
environment, no `_signature` attribute, empty signature cache. -/
def SignedSessionIdentifier.generate (secret : List Char) (expires : Option Int)
    (env : GenEnv) : SignedSessionIdentifier :=
  { ident := ⟨env.now, (env.machine : Int), ((env.pid % 0xFFFF : Nat) : Int),
      (env.counterVal : Int)⟩,
    secret := secret, expires := expires, presented := [], cachedSig := none }

/-- The `signed` property (util.py lines 114-119): canonical 24-character
identifier followed by the computed signature. -/
def SignedSessionIdentifier.signed
    (hmacHex : List Char → List Char → List Char)
    (s : SignedSessionIdentifier) :
    Except PyExc (List Char × SignedSessionIdentifier) :=
  match s.signatureProp hmacHex with
  | .error e => .error e
  | .ok (sig, s₂) => .ok (s₂.ident.str ++ sig, s₂)

theorem lowerHex_isHexDigitPy {c : Char} (h : isLowerHex c = true) :
    isHexDigitPy c = true := by
  simp [isLowerHex] at h
  simp [isHexDigitPy]
  tauto

/-- Slicing a 24-character identifier with a trailing signature parses the
same as the identifier alone: every slice the parser reads lies inside the
first 24 characters. -/
theorem parse_append (a b : List Char) (ha : a.length = 24) :
    SessionIdentifier.parse (a ++ b) = SessionIdentifier.parse a := by
  have t1 : (a ++ b).take 8 = a.take 8 :=
    List.take_append_of_le_length (by omega)
  have d8 : (a ++ b).drop 8 = a.drop 8 ++ b :=
    List.drop_append_of_le_length (by omega)
  have t2 : ((a ++ b).drop 8).take 6 = (a.drop 8).take 6 := by
    rw [d8]
    exact List.take_append_of_le_length (by simp [ha])
  have d14 : (a ++ b).drop 14 = a.drop 14 ++ b :=
    List.drop_append_of_le_length (by omega)
  have t3 : ((a ++ b).drop 14).take 4 = (a.drop 14).take 4 := by
    rw [d14]
    exact List.take_append_of_le_length (by simp [ha])
  have d18 : (a ++ b).drop 18 = a.drop 18 ++ b :=
    List.drop_append_of_le_length (by omega)
  have t4 : ((a ++ b).drop 18).take 6 = (a.drop 18).take 6 := by
    rw [d18]
    exact List.take_append_of_le_length (by simp [ha])
  simp only [SessionIdentifier.parse, t1, t2, t3, t4]

theorem unhexlifyOk_of_inWidths (id : SessionIdentifier) (hw : id.inWidths) :
    unhexlifyOk id.str = true := by
  obtain ⟨hsl, hml, -⟩ := str_spec id hw
  have hall : id.str.all isHexDigitPy = true := by
    rw [List.all_eq_true]
    intro c hc
    exact lowerHex_isHexDigitPy (hml c hc)
  rw [unhexlifyOk, hsl, hall]
  decide

/-! ## Claim C1 (signature checking) -/

/-- C1 (refuting the claimed behaviour): for every HMAC function with
64-character hex digests, every pair of secrets `S`, `S₂` — equal or not —
and every identifier with in-width fields, the 88-character signed form
produced under `S` parses SUCCESSFULLY under `S₂`. The `valid` property
(util.py line 146) compares the recomputed challenge against
`self.signature`, the computed-and-cached property — the same HMAC value —
rather than against `self._signature`, the trailing 64 characters presented
in the token, so validation never fails on an unexpired well-formed
token. -/
theorem c1_parse_accepts_any_secret
    (hmacHex : List Char → List Char → List Char)
    (hlen : ∀ k m, (hmacHex k m).length = 64)
    (now : Int) (S S₂ : List Char) (id : SessionIdentifier)
    (hw : id.inWidths) :
    SignedSessionIdentifier.signed hmacHex ⟨id, S, none, [], none⟩
        = .ok (id.str ++ hmacHex S id.str, ⟨id, S, none, [], some (hmacHex S id.str)⟩)
    ∧ SignedSessionIdentifier.parse hmacHex now S₂ none (id.str ++ hmacHex S id.str)
        = .ok ⟨id, S₂, none, hmacHex S id.str, some (hmacHex S₂ id.str)⟩ := by
  obtain ⟨hsl, hml, hpr⟩ := str_spec id hw
  have hhex := unhexlifyOk_of_inWidths id hw
  constructor
  · simp only [SignedSessionIdentifier.signed, SignedSessionIdentifier.signatureProp, hhex,
      if_true]
  · have hslen : (id.str ++ hmacHex S id.str).length = 88 := by
      simp only [List.length_append, hsl, hlen S id.str]
    have hparse : SessionIdentifier.parse (id.str ++ hmacHex S id.str) = some id := by
      rw [parse_append _ _ hsl, hpr]
    have hdrop : (id.str ++ hmacHex S id.str).drop 24 = hmacHex S id.str :=
      List.drop_left' hsl
    have hne : ¬ hmacHex S id.str = [] := by
      have h64 := hlen S id.str
      intro hnil
      rw [hnil] at h64
      simp at h64
    unfold SignedSessionIdentifier.parse
    rw [if_neg (fun h => h hslen), hparse]
    simp only [SignedSessionIdentifier.valid, SignedSessionIdentifier.signatureProp,
      expiredNow, hdrop, hne, hhex, if_true, if_false, decide_True, ite_false]
    simp

/-- Witness for C1: a concrete 64-character HMAC stand-in, two different
secrets and the all-zero identifier. -/
theorem c1_parse_accepts_any_secret_witness :
    SignedSessionIdentifier.signed (fun _ _ => List.replicate 64 'a')
        ⟨⟨0, 0, 0, 0⟩, ['a'], none, [], none⟩
      = .ok ((⟨0, 0, 0, 0⟩ : SessionIdentifier).str ++ List.replicate 64 'a',
          ⟨⟨0, 0, 0, 0⟩, ['a'], none, [], some (List.replicate 64 'a')⟩)
    ∧ SignedSessionIdentifier.parse (fun _ _ => List.replicate 64 'a') 0 ['b'] none
        ((⟨0, 0, 0, 0⟩ : SessionIdentifier).str ++ List.replicate 64 'a')
      = .ok ⟨⟨0, 0, 0, 0⟩, ['b'], none, List.replicate 64 'a',
          some (List.replicate 64 'a')⟩ :=
  c1_parse_accepts_any_secret (fun _ _ => List.replicate 64 'a')
    (fun _ _ => by simp) 0 ['a'] ['b'] ⟨0, 0, 0, 0⟩ (by decide)

/-! ## SessionExtension (src/web/ext/session.py) -/

/-- A normalized Python `timedelta`: days, a seconds remainder and a
microseconds remainder. Truthy iff any component is nonzero. -/
structure PyTimedelta where
  days : Int
  seconds : Int
  micro : Int
deriving DecidableEq, Repr

def PyTimedelta.truthy (t : PyTimedelta) : Bool :=
  decide (t.days ≠ 0) || decide (t.seconds ≠ 0) || decide (t.micro ≠ 0)

/-- Constructor-time configuration of `SessionExtension` used by the
claims: the secret, `self._expires` (a `timedelta` after `__init__`
normalization, or `None`) and `self._refresh`. -/
structure SessionExtensionCfg where
  secret : List Char
  _expires : Option PyTimedelta
  _refresh : Bool
deriving Repr

/-- Result of `get_session_id`: the identifier bound to `_id` and whether
`session['_new'] = True` was set. -/
structure ResolvedId where
  identifier : SignedSessionIdentifier
  isNew : Bool
deriving DecidableEq, Repr

/-- `SessionExtension.get_session_id` (ext/session.py lines 98-141).
`cookieToken` is the configured cookie's value in the inbound request, if
present. When a token is present and `self._expires` is truthy, the source
computes `self._expires.days * 24 * 60 * 60 + self.expires.hours * 60 * 60
+ self.expires.minutes * 60 + self.expires.seconds`: `self.expires` is not
an attribute of the extension and `SessionExtension.__getattr__` raises
`AttributeError` for it (and `timedelta` has no `hours` attribute either),
so the branch raises `AttributeError`, which the surrounding
`except ValueError` does not catch. Otherwise the token is parsed with no
expiry window; any `ValueError` (all `SignatureError`s, `int()` failures,
`binascii.Error`) falls through to generation with `_new` set. -/
def SessionExtension.get_session_id
    (hmacHex : List Char → List Char → List Char)
    (cfg : SessionExtensionCfg) (env : GenEnv)
    (cookieToken : Option (List Char)) : Except PyExc ResolvedId :=
  let fresh : ResolvedId :=
    ⟨SignedSessionIdentifier.generate cfg.secret none env, true⟩
  match cookieToken with
  | none => .ok fresh
  | some token =>
    if token = [] then .ok fresh
    else
      match cfg._expires with
      | some td =>
        if td.truthy then .error .attribute
        else
          match SignedSessionIdentifier.parse hmacHex env.now cfg.secret none token with
          | .ok s => .ok ⟨s, false⟩
          | .error e => if e.isValueError then .ok fresh else .error e
      | none =>
        match SignedSessionIdentifier.parse hmacHex env.now cfg.secret none token with
        | .ok s => .ok ⟨s, false⟩
        | .error e => if e.isValueError then .ok fresh else .error e

/-- A session engine as the event dispatcher sees it: its registered name
and which lifecycle callbacks `hasattr` finds on it. -/
structure EngineInfo where
  name : String
  hasAfter : Bool
  hasDone : Bool
deriving DecidableEq, Repr

/-- Per-request `SessionGroup` state at dispatch time: the keys present in
`context.session.__dict__` (lazily resolved attributes such as engine
names, plus `_ctx`, `_id`, `_new`), and the `SignedSessionIdentifier` that
`_id` resolved to when it is present. -/
structure SessionGroupState where
  dict : List String
  idVal : SignedSessionIdentifier
deriving DecidableEq, Repr

/-- Outcome of the `after` phase: engines notified with the `after` event
and the cookie value set on the response, if any. -/
structure AfterOutcome where
  notified : List String
  cookie : Option (List Char)
deriving DecidableEq, Repr

/-- `SessionExtension.after` (ext/session.py lines 172-190): first
broadcasts `after` to every engine implementing it (`_handle_event(True,
'after', context)` — `all=True`, regardless of access), then returns
without a cookie decision when `_id` was never resolved, or when
`refresh` is falsy and the identifier is not newly generated; otherwise
sets the cookie to `str(context.session._id)` — which, since
`SignedSessionIdentifier` does not override `__str__`, is the 24-character
UNSIGNED identifier text, not the 88-character signed form. -/
def SessionExtension.after (cfg : SessionExtensionCfg)
    (engines : List EngineInfo) (sess : SessionGroupState) : AfterOutcome :=
  let notified := (engines.filter (·.hasAfter)).map (·.name)
  if sess.dict.contains "_id" = false then ⟨notified, none⟩
  else if cfg._refresh = false && sess.dict.contains "_new" = false then
    ⟨notified, none⟩
  else ⟨notified, some sess.idVal.ident.str⟩

/-- Outcome of the `done` phase: engines notified with the `done` event and
engines whose `persist` is invoked. -/
structure DoneOutcome where
  notified : List String
  persisted : List String
deriving DecidableEq, Repr

/-- `SessionExtension.done` (ext/session.py lines 192-205): first
broadcasts `done` to every engine implementing it (`all=True`), then bails
if `_id` was never resolved; otherwise calls `persist` on exactly the
engines whose names appear in the group's `__dict__`
(`set(context.session.__dict__) & set(self.engines)`). -/
def SessionExtension.done (engines : List EngineInfo)
    (sess : SessionGroupState) : DoneOutcome :=
  let notified := (engines.filter (·.hasDone)).map (·.name)
  if sess.dict.contains "_id" = false then ⟨notified, []⟩
  else ⟨notified, (engines.filter (fun e => sess.dict.contains e.name)).map (·.name)⟩

/-- The only exception the `valid` property itself raises is
`binascii.Error` (from `unhexlify`). -/
theorem valid_error_binascii (hmacHex : List Char → List Char → List Char)
    (now : Int) (s : SignedSessionIdentifier) (e : PyExc)
    (h : SignedSessionIdentifier.valid hmacHex now s = .error e) :
    e = .binascii := by
  unfold SignedSessionIdentifier.valid SignedSessionIdentifier.signatureProp at h
  split_ifs at h
  all_goals (revert h; cases s.cachedSig <;> intro h <;> simp_all)

/-- Every exception `SignedSessionIdentifier.parse` can raise is a
`ValueError`: `SignatureError`s, `int()` conversion failures and
`binascii.Error`, never `AttributeError` or `TypeError`. -/
theorem parse_error_isValueError
    (hmacHex : List Char → List Char → List Char) (now : Int)
    (secret : List Char) (expires : Option Int) (value : List Char) (e : PyExc)
    (h : SignedSessionIdentifier.parse hmacHex now secret expires value = .error e) :
    e.isValueError = true := by
  unfold SignedSessionIdentifier.parse at h
  split at h
  · injection h with h; subst h; rfl
  · split at h
    · injection h with h; subst h; rfl
    · split at h
      · injection h with h; subst h; rfl
      · dsimp only at h
        split at h
        · rename_i e₂ heq
          injection h with h
          subst h
          rw [valid_error_binascii _ _ _ _ heq]
          rfl
        · exact absurd h (by simp)
        · injection h with h; subst h; rfl

/-! ## Claim C3 (identifier resolution boundary) -/

/-- C3 (refuting "never raises for every configuration"): with a configured
truthy `_expires` and any non-empty inbound token, `get_session_id` raises
`AttributeError` (ext/session.py line 117 reads the undefined
`self.expires`), escaping the `except ValueError`. With no configured
expiry the operation is indeed total: it always returns, a parse failure
yields a freshly generated identifier with the `_new` marker set, and an
absent token likewise. -/
theorem c3_resolution_raises_with_expiry
    (hmacHex : List Char → List Char → List Char)
    (secret : List Char) (refresh : Bool) (td : PyTimedelta) (env : GenEnv)
    (token : List Char) (htd : td.truthy = true) (htok : token ≠ []) :
    SessionExtension.get_session_id hmacHex ⟨secret, some td, refresh⟩ env
        (some token) = .error .attribute
    ∧ (∀ tok₂, ∃ r, SessionExtension.get_session_id hmacHex
        ⟨secret, none, refresh⟩ env tok₂ = .ok r)
    ∧ (∀ t₂ e, t₂ ≠ [] →
        SignedSessionIdentifier.parse hmacHex env.now secret none t₂ = .error e →
        SessionExtension.get_session_id hmacHex ⟨secret, none, refresh⟩ env
            (some t₂)
          = .ok ⟨SignedSessionIdentifier.generate secret none env, true⟩) := by
  refine ⟨?_, ?_, ?_⟩
  · simp only [SessionExtension.get_session_id, htd, if_true, htok, if_neg htok]
    simp [htok]
  · intro tok₂
    match tok₂ with
    | none => exact ⟨_, rfl⟩
    | some t =>
      by_cases ht : t = []
      · exact ⟨⟨SignedSessionIdentifier.generate secret none env, true⟩,
          by simp [SessionExtension.get_session_id, ht]⟩
      · match hp : SignedSessionIdentifier.parse hmacHex env.now secret none t with
        | .ok s =>
          exact ⟨⟨s, false⟩, by simp [SessionExtension.get_session_id, ht, hp]⟩
        | .error e =>
          have hve := parse_error_isValueError hmacHex env.now secret none t e hp
          exact ⟨⟨SignedSessionIdentifier.generate secret none env, true⟩,
            by simp [SessionExtension.get_session_id, ht, hp, hve]⟩
  · intro t₂ e ht₂ hp
    have hve := parse_error_isValueError hmacHex env.now secret none t₂ e hp
    simp [SessionExtension.get_session_id, ht₂, hp, hve]

/-- Witness for C3: secret `"s"`, `expires=timedelta(hours=1)` (normalized
to 3600 seconds), an 88-character inbound token. -/
theorem c3_resolution_raises_with_expiry_witness :
    SessionExtension.get_session_id (fun _ _ => List.replicate 64 'a')
        ⟨['s'], some ⟨0, 3600, 0⟩, true⟩ ⟨0, 0, 0, 0⟩
        (some (List.replicate 88 'x')) = .error .attribute
    ∧ (∀ tok₂, ∃ r, SessionExtension.get_session_id (fun _ _ => List.replicate 64 'a')
        ⟨['s'], none, true⟩ ⟨0, 0, 0, 0⟩ tok₂ = .ok r)
    ∧ (∀ t₂ e, t₂ ≠ [] →
        SignedSessionIdentifier.parse (fun _ _ => List.replicate 64 'a')
            (GenEnv.mk 0 0 0 0).now ['s'] none t₂ = .error e →
        SessionExtension.get_session_id (fun _ _ => List.replicate 64 'a')
            ⟨['s'], none, true⟩ ⟨0, 0, 0, 0⟩ (some t₂)
          = .ok ⟨SignedSessionIdentifier.generate ['s'] none ⟨0, 0, 0, 0⟩, true⟩) :=
  c3_resolution_raises_with_expiry (fun _ _ => List.replicate 64 'a') ['s'] true
    ⟨0, 3600, 0⟩ ⟨0, 0, 0, 0⟩ (List.replicate 88 'x') (by decide) (by simp)

/-! ## Claim C2 (access-gated dispatch) -/

/-- C2 counterexample: a request whose session group was never touched
(`__dict__` holds only the `_ctx` binding) with one engine implementing
`after` and `done`: the engine still receives both events, because
`after`/`done` broadcast with `all=True` before the `_id` gate. The claim
says no engine receives an `after` or `done` event. -/
theorem c2_counterexample_events_broadcast :
    (SessionExtension.after ⟨['s'], none, true⟩ [⟨"default", true, true⟩]
        ⟨["_ctx"], ⟨⟨0, 0, 0, 0⟩, [], none, [], none⟩⟩).notified = ["default"]
    ∧ (SessionExtension.done [⟨"default", true, true⟩]
        ⟨["_ctx"], ⟨⟨0, 0, 0, 0⟩, [], none, [], none⟩⟩).notified = ["default"]
    ∧ (["_ctx"] : List String).contains "_id" = false := by
  refine ⟨rfl, rfl, by decide⟩

/-- C2 (amended): for a request whose `_id` entry was never resolved, no
cookie decision is made and no engine's `persist` is called; the `after`
and `done` events, however, are broadcast to every engine implementing
them, regardless of access. -/
theorem c2_unaccessed_no_persist_no_cookie (cfg : SessionExtensionCfg)
    (engines : List EngineInfo) (sess : SessionGroupState)
    (h : sess.dict.contains "_id" = false) :
    (SessionExtension.after cfg engines sess).cookie = none
    ∧ (SessionExtension.done engines sess).persisted = []
    ∧ (SessionExtension.after cfg engines sess).notified
        = (engines.filter (·.hasAfter)).map (·.name)
    ∧ (SessionExtension.done engines sess).notified
        = (engines.filter (·.hasDone)).map (·.name) := by
  unfold SessionExtension.after SessionExtension.done
  rw [h]
  simp

/-- Witness for C2's amended statement at a concrete configuration. -/
theorem c2_unaccessed_no_persist_no_cookie_witness :
    (SessionExtension.after ⟨['s'], none, true⟩ [⟨"default", true, true⟩]
        ⟨["_ctx"], ⟨⟨0, 0, 0, 0⟩, [], none, [], none⟩⟩).cookie = none
    ∧ (SessionExtension.done [⟨"default", true, true⟩]
        ⟨["_ctx"], ⟨⟨0, 0, 0, 0⟩, [], none, [], none⟩⟩).persisted = []
    ∧ (SessionExtension.after ⟨['s'], none, true⟩ [⟨"default", true, true⟩]
        ⟨["_ctx"], ⟨⟨0, 0, 0, 0⟩, [], none, [], none⟩⟩).notified
        = (([⟨"default", true, true⟩] : List EngineInfo).filter (·.hasAfter)).map (·.name)
    ∧ (SessionExtension.done [⟨"default", true, true⟩]
        ⟨["_ctx"], ⟨⟨0, 0, 0, 0⟩, [], none, [], none⟩⟩).notified
        = (([⟨"default", true, true⟩] : List EngineInfo).filter (·.hasDone)).map (·.name) :=
  c2_unaccessed_no_persist_no_cookie ⟨['s'], none, true⟩ [⟨"default", true, true⟩]
    ⟨["_ctx"], ⟨⟨0, 0, 0, 0⟩, [], none, [], none⟩⟩ (by decide)

/-! ## Claim C6 (cookie reissue policy) -/

/-- C6 (with the code defect demonstrated): for an accessed session, with
`refresh` falsy and no `_new` marker no cookie is set, and with `refresh`
truthy a cookie IS set — but its value is `str(context.session._id)`, the
24-character unsigned identifier text rather than the 88-character signed
form the claim describes, and the extension's own parser rejects that
value with a length `SignatureError` on the next request. -/
theorem c6_refresh_cookie_is_unsigned
    (hmacHex : List Char → List Char → List Char) (now : Int)
    (cfg : SessionExtensionCfg) (engines : List EngineInfo)
    (sess : SessionGroupState)
    (hid : sess.dict.contains "_id" = true)
    (hw : sess.idVal.ident.inWidths) :
    (cfg._refresh = false → sess.dict.contains "_new" = false →
      (SessionExtension.after cfg engines sess).cookie = none)
    ∧ (cfg._refresh = true →
        (SessionExtension.after cfg engines sess).cookie
            = some sess.idVal.ident.str
        ∧ sess.idVal.ident.str.length = 24
        ∧ SignedSessionIdentifier.parse hmacHex now cfg.secret none
            sess.idVal.ident.str = .error (.signature .length)) := by
  obtain ⟨hsl, -, -⟩ := str_spec sess.idVal.ident hw
  constructor
  · intro hrf hnew
    unfold SessionExtension.after
    rw [hid, hrf, hnew]
    simp
  · intro hrf
    refine ⟨?_, hsl, ?_⟩
    · unfold SessionExtension.after
      rw [hid, hrf]
      simp
    · unfold SignedSessionIdentifier.parse
      rw [if_pos (by omega)]

/-- Witness for C6 at a concrete refresh-enabled configuration with the
all-zero resolved identifier. -/
theorem c6_refresh_cookie_is_unsigned_witness :
    ((⟨['s'], none, true⟩ : SessionExtensionCfg)._refresh = false →
      (["_id"] : List String).contains "_new" = false →
      (SessionExtension.after ⟨['s'], none, true⟩ []
        ⟨["_id"], ⟨⟨0, 0, 0, 0⟩, [], none, [], none⟩⟩).cookie = none)
    ∧ ((⟨['s'], none, true⟩ : SessionExtensionCfg)._refresh = true →
        (SessionExtension.after ⟨['s'], none, true⟩ []
          ⟨["_id"], ⟨⟨0, 0, 0, 0⟩, [], none, [], none⟩⟩).cookie
            = some (⟨0, 0, 0, 0⟩ : SessionIdentifier).str
        ∧ (⟨0, 0, 0, 0⟩ : SessionIdentifier).str.length = 24
        ∧ SignedSessionIdentifier.parse (fun _ _ => List.replicate 64 'a') 0 ['s']
            none (⟨0, 0, 0, 0⟩ : SessionIdentifier).str
            = .error (.signature .length)) :=
  c6_refresh_cookie_is_unsigned (fun _ _ => List.replicate 64 'a') 0
    ⟨['s'], none, true⟩ [] ⟨["_id"], ⟨⟨0, 0, 0, 0⟩, [], none, [], none⟩⟩
    (by decide) (by decide)

/-! ## In-memory engine and sweeper (src/web/session/memory.py) -/

/-- A stored session record as the sweeper reads it: its `_expires`
attribute when present (a UTC timestamp), plus the remaining attributes,
which the sweeper never touches. -/
structure SessionRecord where
  expiresAt : Option Int
  payload : List (String × Int)
deriving DecidableEq, Repr

/-- The test `'_expires' in self.pool[sid]` followed by
`self.pool[sid]['_expires'] <= now` (memory.py lines 35-36). -/
def recordExpired (r : SessionRecord) (now : Int) : Bool :=
  match r.expiresAt with
  | none => false
  | some e => decide (e ≤ now)

/-- Cull collection in `PeriodicExpiration._run` (memory.py lines 31-37):
one pass over the pool collecting every id whose record carries
`_expires <= now`, computed before anything is deleted. -/
def cullIds (pool : List (String × SessionRecord)) (now : Int) : List String :=
  (pool.filter (fun p => recordExpired p.2 now)).map (·.1)

/-- `for sid in cull: del self.pool[sid]` (memory.py lines 39-40), run only
after collection finishes. -/
def deleteIds (pool : List (String × SessionRecord)) (ids : List String) :
    List (String × SessionRecord) :=
  ids.foldl (fun acc sid => acc.filter (fun q => q.1 ≠ sid)) pool

/-- One sweep of `PeriodicExpiration._run` (collect-then-delete): the ids
culled and the pool after deletion. -/
def PeriodicExpiration.run (pool : List (String × SessionRecord)) (now : Int) :
    List String × List (String × SessionRecord) :=
  let cull := cullIds pool now
  (cull, deleteIds pool cull)

theorem deleteIds_eq_filter (ids : List String) :
    ∀ pool, deleteIds pool ids = pool.filter (fun q => decide (q.1 ∉ ids)) := by
  induction ids with
  | nil => intro pool; simp [deleteIds]
  | cons s rest ih =>
    intro pool
    show deleteIds (pool.filter (fun q => q.1 ≠ s)) rest = _
    rw [ih, List.filter_filter]
    apply List.filter_congr
    intro q _
    simp only [List.mem_cons, not_or]
    rw [Bool.and_comm]
    simp

/-- Records of a key-unique pool are determined by their keys. -/
theorem key_inj (pool : List (String × SessionRecord))
    (hnd : (pool.map Prod.fst).Nodup) :
    ∀ p ∈ pool, ∀ q ∈ pool, p.1 = q.1 → p = q := by
  induction pool with
  | nil => simp
  | cons a rest ih =>
    rw [List.map_cons, List.nodup_cons] at hnd
    obtain ⟨ha, hrest⟩ := hnd
    intro p hp q hq hpq
    rcases List.mem_cons.mp hp with hp | hp <;>
      rcases List.mem_cons.mp hq with hq | hq
    · rw [hp, hq]
    · exact absurd (List.mem_map.mpr ⟨q, hq, (hp ▸ hpq).symm⟩) ha
    · exact absurd (List.mem_map.mpr ⟨p, hp, hq ▸ hpq⟩) ha
    · exact ih hrest p hp q hq hpq

/-! ## Claim C7 (expiration sweep) -/

/-- C7: one sweep pass removes exactly the records whose `_expires` is at
most the sweep time — records without `_expires` or with a later stamp
survive unchanged — and the cull list is computed from the original pool
before any deletion happens (collect-then-delete). -/
theorem c7_sweep_removes_exactly_expired (pool : List (String × SessionRecord))
    (now : Int) (hnd : (pool.map Prod.fst).Nodup) :
    (PeriodicExpiration.run pool now).1
        = (pool.filter (fun p => recordExpired p.2 now)).map (·.1)
    ∧ (PeriodicExpiration.run pool now).2
        = pool.filter (fun p => ! recordExpired p.2 now) := by
  refine ⟨rfl, ?_⟩
  show deleteIds pool (cullIds pool now) = _
  rw [deleteIds_eq_filter]
  apply List.filter_congr
  intro q hq
  by_cases hexp : recordExpired q.2 now = true
  · have hmem : q.1 ∈ cullIds pool now :=
      List.mem_map.mpr ⟨q, List.mem_filter.mpr ⟨hq, hexp⟩, rfl⟩
    simp [hmem, hexp]
  · have hmem : q.1 ∉ cullIds pool now := by
      intro hc
      obtain ⟨p, hpf, hpq⟩ := List.mem_map.mp hc
      obtain ⟨hp, hpe⟩ := List.mem_filter.mp hpf
      have := key_inj pool hnd p hp q hq hpq
      rw [this] at hpe
      exact hexp hpe
    simp [hmem, hexp]

/-- Witness for C7: the spec's three-record pool with `_expires` at
`t - 10`, `t + 10`, `t + 1000` for sweep time `t = 0`. -/
theorem c7_sweep_removes_exactly_expired_witness :
    (PeriodicExpiration.run
        [("a", ⟨some (-10), []⟩), ("b", ⟨some 10, []⟩), ("c", ⟨some 1000, []⟩)]
        0).1
      = (([("a", ⟨some (-10), []⟩), ("b", ⟨some 10, []⟩), ("c", ⟨some 1000, []⟩)]
          : List (String × SessionRecord)).filter
            (fun p => recordExpired p.2 0)).map (·.1)
    ∧ (PeriodicExpiration.run
        [("a", ⟨some (-10), []⟩), ("b", ⟨some 10, []⟩), ("c", ⟨some 1000, []⟩)]
        0).2
      = ([("a", ⟨some (-10), []⟩), ("b", ⟨some 10, []⟩), ("c", ⟨some 1000, []⟩)]
          : List (String × SessionRecord)).filter
            (fun p => ! recordExpired p.2 0) :=
  c7_sweep_removes_exactly_expired
    [("a", ⟨some (-10), []⟩), ("b", ⟨some 10, []⟩), ("c", ⟨some 1000, []⟩)] 0
    (by decide)

/-! ## Claim C8 (sweeper stop) -/

/-- Methods `threading.Timer` provides (Python standard library): there is
`cancel`, but no `stop`. -/
def timerMethods : List String :=
  ["start", "run", "cancel", "join", "is_alive", "daemon", "name",
   "interval", "function", "finished"]

/-- Scheduler state of `PeriodicExpiration`: the `_stop` flag, the
currently scheduled timer if any (`self.timer`), and the period. -/
structure SweeperState where
  _stop : Bool
  timer : Option Nat
  period : Nat
deriving DecidableEq, Repr

/-- `PeriodicExpiration.schedule` (memory.py lines 44-52): bail when
stopped, otherwise create and start a new timer for one period. -/
def PeriodicExpiration.schedule (s : SweeperState) : SweeperState :=
  if s._stop then s else { s with timer := some s.period }

/-- `PeriodicExpiration.stop` (memory.py lines 54-58): set `_stop`, then
call `self.timer.stop()` when a timer object exists. The attribute lookup
of `stop` on a `threading.Timer` fails — the class only offers `cancel` —
so the call raises `AttributeError`. -/
def PeriodicExpiration.stop (s : SweeperState) : Except PyExc SweeperState :=
  let s₁ : SweeperState := { s with _stop := true }
  match s₁.timer with
  | none => .ok s₁
  | some _ =>
    if timerMethods.contains "stop" then .ok { s₁ with timer := none }
    else .error .attribute

/-- C8 (refuting "stop succeeds and cancels the wake"): whenever a timer is
actually scheduled — the normal running state — `stop()` raises
`AttributeError`, because `threading.Timer` has no `stop` method (only
`cancel`). Only with no pending timer does `stop` return, and then the
`_stop` flag does make any later `schedule` call a no-op, so no further
sweep would be scheduled. -/
theorem c8_stop_raises_attribute_error (s : SweeperState) :
    (∀ t, s.timer = some t → PeriodicExpiration.stop s = .error .attribute)
    ∧ (s.timer = none → PeriodicExpiration.stop s
        = .ok { s with _stop := true })
    ∧ (s._stop = true → PeriodicExpiration.schedule s = s) := by
  refine ⟨?_, ?_, ?_⟩
  · intro t ht
    unfold PeriodicExpiration.stop
    have : ({ s with _stop := true } : SweeperState).timer = some t := ht
    rw [this]
    simp [timerMethods]
  · intro ht
    unfold PeriodicExpiration.stop
    have : ({ s with _stop := true } : SweeperState).timer = none := ht
    rw [this]
  · intro hs
    unfold PeriodicExpiration.schedule
    rw [hs]
    simp

/-! ## Claim C9 (counter) -/

/-- `Counter.__next__` (util.py lines 44-49): under the lock, increment the
internal value modulo `0xFFFFFF` and return the new value. -/
def Counter.next (v : Nat) : Nat := (v + 1) % 0xFFFFFF

/-- The internal value after `k` sequential calls starting from the random
seed (`randint(0, 2**24)`). -/
def Counter.iterate (seed : Nat) : Nat → Nat
  | 0 => seed
  | k + 1 => Counter.next (Counter.iterate seed k)

/-- Values returned by `n` sequential `next()` calls. -/
def Counter.calls (seed n : Nat) : List Nat :=
  (List.range n).map (fun i => Counter.iterate seed (i + 1))

theorem Counter.iterate_mod (seed : Nat) :
    ∀ k, 1 ≤ k → Counter.iterate seed k = (seed + k) % 0xFFFFFF := by
  intro k
  induction k with
  | zero => intro h; exact absurd h (by omega)
  | succ k ih =>
    intro _
    by_cases hk : 1 ≤ k
    · show Counter.next (Counter.iterate seed k) = _
      rw [ih hk]
      unfold Counter.next
      rw [Nat.mod_add_mod]
      congr 1
    · have hk0 : k = 0 := by omega
      subst hk0
      rfl

/-- C9: for every `n < 0xFFFFFF`, `n` sequential `next()` calls return `n`
pairwise distinct values, each in `[0, 0xFFFFFE]` (hence each a `uint24`);
a repeat can occur only at or past the wraparound boundary. -/
theorem c9_counter_distinct (seed n : Nat) (hn : n < 0xFFFFFF) :
    (Counter.calls seed n).Nodup
    ∧ ∀ v ∈ Counter.calls seed n, v < 0xFFFFFF := by
  have hcalls : Counter.calls seed n
      = (List.range n).map (fun i => (seed + i + 1) % 0xFFFFFF) := by
    unfold Counter.calls
    apply List.map_congr_left
    intro i _
    rw [Counter.iterate_mod seed (i + 1) (by omega)]
    omega
  constructor
  · rw [hcalls]
    apply List.Nodup.map_on ?_ (List.nodup_range n)
    intro x hx y hy hxy
    rw [List.mem_range] at hx hy
    omega
  · intro v hv
    rw [hcalls] at hv
    obtain ⟨i, -, hvi⟩ := List.mem_map.mp hv
    rw [← hvi]
    exact Nat.mod_lt _ (by norm_num)

/-- Witness for C9 at seed 7, n = 3. -/
theorem c9_counter_distinct_witness :
    (Counter.calls 7 3).Nodup ∧ ∀ v ∈ Counter.calls 7 3, v < 0xFFFFFF :=
  c9_counter_distinct 7 3 (by norm_num)

/-! ## Claim C10 (MemorySession constructor with expiry) -/

/-- Python values an application might pass as `MemorySession(expire=...)`:
`None`, an int, a string, or a `timedelta`. -/
inductive PyVal where
  | none
  | int (n : Int)
  | str (s : List Char)
  | td (t : PyTimedelta)
deriving DecidableEq, Repr

def PyVal.truthy : PyVal → Bool
  | .none => false
  | .int n => decide (n ≠ 0)
  | .str s => decide (s ≠ [])
  | .td t => t.truthy

/-- `hasattr(expire, 'isdigit')`: among the modelled values only strings
have the attribute. -/
def PyVal.hasIsdigit : PyVal → Bool
  | .str _ => true
  | _ => false

/-- `str.isdigit()`: nonempty and all digit characters. -/
def PyVal.isdigit : PyVal → Bool
  | .str s => decide (s ≠ []) && s.all Char.isDigit
  | _ => false

/-- In-memory engine state after a successful `__init__`. -/
structure MemorySessionState where
  _expire : PyVal
deriving DecidableEq, Repr

/-- `MemorySession.__init__` (memory.py lines 62-73): a truthy digit-string
expiry is passed UNCONVERTED to `timedelta(hours=expire)`, which raises
`TypeError` for a `str` hours component; any other truthy expiry reaches
`self._expunge = PeriodicExpiration()` — called without the required
positional `pool` argument — which raises `TypeError`. Only a falsy
`expire` completes, and then no sweeper is created. -/
def MemorySession.init (expire : PyVal) : Except PyExc MemorySessionState :=
  if expire.truthy && (expire.hasIsdigit && expire.isdigit) then
    .error .typeError
  else if expire.truthy then .error .typeError
  else .ok { _expire := expire }

/-- C10: every truthy `expire` value makes the in-memory engine constructor
raise a `TypeError` before the engine exists (digit strings in the
`timedelta(hours=expire)` call, everything else in the pool-less
`PeriodicExpiration()` call), so an engine with `_expire` set — and with it
the sweeper, the expiry-on-load branch and the `_expires`-stamping persist
branch — is unreachable through the public constructor; a falsy `expire`
constructs the engine without a sweeper. -/
theorem c10_truthy_expiry_raises (expire : PyVal) :
    (expire.truthy = true → MemorySession.init expire = .error .typeError)
    ∧ (expire.truthy = false →
        MemorySession.init expire = .ok { _expire := expire }) := by
  constructor
  · intro h
    cases hx : (expire.hasIsdigit && expire.isdigit) <;>
      simp [MemorySession.init, h, hx]
  · intro h
    simp [MemorySession.init, h]

end WebSession
